import Mathlib

/-!
Shallow embedding of the media-consumption dashboard's aggregation,
caching, ranking-editor and proxy-server logic, together with theorems
about the behaviours documented for it.

Conventions used throughout:
* JavaScript timestamps are modelled as integers (milliseconds since the
  Unix epoch); `Date.prototype.getFullYear` is modelled in UTC via the
  standard civil-from-days calendar algorithm.
* JavaScript truthiness on optional strings/numbers is modelled
  explicitly (`none`, `some ""` and `some 0` are falsy).
* JavaScript `Map` objects are modelled as ordered association lists with
  unique keys; `Map.set` replaces in place, `Map.delete` removes.
-/

namespace MediaConsumption

/-! ### JavaScript value helpers -/

/-- Truthiness of an optional numeric field (`undefined` and `0` are falsy). -/
def natTruthy : Option Nat → Bool
  | none => false
  | some n => n != 0

/-- Truthiness of an optional string field (`undefined` and `""` are falsy). -/
def strTruthy : Option String → Bool
  | none => false
  | some s => s != ""

/-- Truthiness of an optional year field (`undefined`, `null` and `0` are falsy). -/
def intTruthy : Option Int → Bool
  | none => false
  | some n => n != 0

/-- JavaScript `a || b` on optional numeric fields. -/
def jsOrNat (a b : Option Nat) : Option Nat :=
  if natTruthy a then a else b

/-- JavaScript `a || 'fallback'` on an optional string field. -/
def jsOrStr (a : Option String) (b : String) : String :=
  if strTruthy a then a.getD b else b

/-! ### Association lists standing in for JavaScript `Map` -/

/-- `Map.prototype.get`. -/
def assocLookup [DecidableEq κ] : List (κ × ν) → κ → Option ν
  | [], _ => none
  | (k, v) :: rest, key => if k = key then some v else assocLookup rest key

/-- `Map.prototype.has`. -/
def assocContains [DecidableEq κ] (l : List (κ × ν)) (key : κ) : Bool :=
  (assocLookup l key).isSome

/-- `Map.prototype.set`: replace in place if the key is present, else append. -/
def assocSet [DecidableEq κ] : List (κ × ν) → κ → ν → List (κ × ν)
  | [], key, v => [(key, v)]
  | (k, w) :: rest, key, v =>
    if k = key then (k, v) :: rest else (k, w) :: assocSet rest key v

/-- `Map.prototype.delete`. -/
def assocErase [DecidableEq κ] (l : List (κ × ν)) (key : κ) : List (κ × ν) :=
  l.filter (fun p => p.1 ≠ key)

/-- Update the value stored at a key in place (used for mutation of a
fetched `Map` entry, e.g. `showMap.get(key).episodes.push(...)`). -/
def assocUpdate [DecidableEq κ] : List (κ × ν) → κ → (ν → ν) → List (κ × ν)
  | [], _, _ => []
  | (k, v) :: rest, key, f =>
    if k = key then (k, f v) :: rest else (k, v) :: assocUpdate rest key f

/-! ### Calendar arithmetic (`Date.prototype.getFullYear`, modelled in UTC) -/

/-- Civil year of a day count relative to 1970-01-01 (Howard Hinnant's
`civil_from_days` algorithm, restricted to the year component). -/
def civilYearFromDays (z0 : Int) : Int :=
  let z := z0 + 719468
  let era := z.fdiv 146097
  let doe := z - era * 146097
  let yoe := (doe - doe / 1460 + doe / 36524 - doe / 146096) / 365
  let y := yoe + era * 400
  let doy := doe - (365 * yoe + yoe / 4 - yoe / 100)
  let mp := (5 * doy + 2) / 153
  let m := if mp < 10 then mp + 3 else mp - 9
  if m ≤ 2 then y + 1 else y

/-- `new Date(ms).getFullYear()` (UTC). -/
def getFullYear (ms : Int) : Int :=
  civilYearFromDays (ms.fdiv 86400000)

/-! ### Watch dates

Raw records carry a `date` field that is a Unix timestamp in seconds, an
ISO date string, or something else entirely.  A string date is modelled by
the millisecond instant it parses to. -/

inductive RawDate where
  | num (seconds : Int)
  | str (parsedMs : Int)
  | other
  deriving DecidableEq, Repr

/-- The `watchDate` normalisation shared by the movie and TV loaders:
a numeric `date` is seconds since the epoch, a string is parsed, and
anything else falls back to `new Date()` (the current instant `now`). -/
def parseWatchDate (now : Int) : RawDate → Int
  | .num s => s * 1000
  | .str ms => ms
  | .other => now

/-! ### Movies: processing, consecutive dedup, top-3 -/

/-- A raw movie history record (fields the aggregation logic reads). -/
structure RawMovie where
  rating_key : Option Nat
  title : Option String
  date : RawDate
  thumb : Option String
  deriving DecidableEq, Repr

/-- A processed movie display item. -/
structure ProcMovie where
  rating_key : Option Nat
  title : String
  date : RawDate
  watchDate : Int
  year : Int
  thumb : Option String
  deriving DecidableEq, Repr

/-- One step of `movieData.map((movie) => ...)` in the movies loader. -/
def processMovie (now : Int) (m : RawMovie) : ProcMovie :=
  let watchDate := parseWatchDate now m.date
  { rating_key := m.rating_key
    title := jsOrStr m.title "Unknown"
    date := m.date
    watchDate := watchDate
    year := getFullYear watchDate
    thumb := m.thumb }

/-- The whole `movieData.map` pass. -/
def processMovies (now : Int) (l : List RawMovie) : List ProcMovie :=
  l.map (processMovie now)

/-- The consecutive-duplicate collapse: an entry is kept iff it is first or
its `rating_key` differs from the entry just before it *in the input list*. -/
def collapseConsecutive : List ProcMovie → List ProcMovie
  | [] => []
  | x :: xs => x :: collapseGo x xs
where
  collapseGo (prev : ProcMovie) : List ProcMovie → List ProcMovie
    | [] => []
    | y :: ys =>
      if y.rating_key ≠ prev.rating_key then y :: collapseGo y ys
      else collapseGo y ys

/-- The two parallel views the movies loader keeps: the deduplicated
display list (`setMovies`) and the complete event list (`setAllWatchData`). -/
structure MoviesResult where
  display : List ProcMovie
  allWatchData : List ProcMovie
  deriving Repr

/-- Building both views from the timestamp-sorted processed list. -/
def loadMovies (sorted : List ProcMovie) : MoviesResult :=
  { display := collapseConsecutive sorted
    allWatchData := sorted }

/-- A ranking file entry (`{ rating_key, title, ... }`). -/
structure RankingEntry where
  rating_key : Option Nat
  title : String
  deriving DecidableEq, Repr

/-- One iteration of the `firstWatchDates` accumulation: for a truthy
`rating_key`, keep the smaller watch year (the `!existing || watchYear <
existing` update, with JavaScript's falsy `0`). -/
def firstWatchStep (acc : List (Option Nat × Int)) (m : ProcMovie) :
    List (Option Nat × Int) :=
  if natTruthy m.rating_key then
    let watchYear := getFullYear m.watchDate
    match assocLookup acc m.rating_key with
    | none => assocSet acc m.rating_key watchYear
    | some existing =>
      if existing = 0 ∨ watchYear < existing then
        assocSet acc m.rating_key watchYear
      else acc
  else acc

/-- `firstWatchDates`: for each truthy `rating_key`, the earliest watch
year seen in `allWatchData`. -/
def firstWatchDates (allWatchData : List ProcMovie) : List (Option Nat × Int) :=
  allWatchData.foldl firstWatchStep []

/-- `getTop3ForYear` in the movies view: filter the ranking list to the
titles *first* watched in the target year, then take the first three. -/
def getTop3ForYearMovies (targetYear : Int) (allWatchData : List ProcMovie)
    (rankings : List RankingEntry) : List RankingEntry :=
  let fw := firstWatchDates allWatchData
  (rankings.filter (fun r => assocLookup fw r.rating_key == some targetYear)).take 3

/-! ### TV shows: grouping, title merge, top-3 -/

/-- A raw history record processed by the TV loader. -/
structure RawEpisode where
  media_type : String
  grandparent_title : Option String
  parent_title : Option String
  grandparent_rating_key : Option Nat
  parent_rating_key : Option Nat
  rating_key : Option Nat
  date : RawDate
  duration : Option Int
  thumb : Option String
  year : Option Int
  deriving DecidableEq, Repr

/-- `episode.grandparent_title || episode.parent_title || 'Unknown Show'`. -/
def showTitleOf (e : RawEpisode) : String :=
  if strTruthy e.grandparent_title then e.grandparent_title.getD ""
  else if strTruthy e.parent_title then e.parent_title.getD ""
  else "Unknown Show"

/-- `episode.grandparent_rating_key || episode.parent_rating_key || episode.rating_key`. -/
def showKeyOf (e : RawEpisode) : Option Nat :=
  jsOrNat e.grandparent_rating_key (jsOrNat e.parent_rating_key e.rating_key)

/-- One accumulated `showMap` entry. -/
structure ShowGroup where
  rating_key : Option Nat
  title : String
  episodes : List RawEpisode
  firstWatched : Int
  lastWatched : Int
  totalDuration : Int
  thumb : Option String
  deriving DecidableEq, Repr

/-- Mutation applied to a `showMap` entry for one episode event:
push the episode, add its duration, widen the watched interval. -/
def pushEpisode (e : RawEpisode) (watchDate : Int) (g : ShowGroup) : ShowGroup :=
  { g with
    episodes := g.episodes ++ [e]
    totalDuration := g.totalDuration + e.duration.getD 0
    firstWatched := if watchDate < g.firstWatched then watchDate else g.firstWatched
    lastWatched := if g.lastWatched < watchDate then watchDate else g.lastWatched }

/-- One iteration of `showData.forEach((episode) => ...)`. -/
def showMapStep (now : Int) (acc : List (Option Nat × ShowGroup)) (e : RawEpisode) :
    List (Option Nat × ShowGroup) :=
  if e.media_type ≠ "episode" then acc
  else
    let key := showKeyOf e
    let watchDate := parseWatchDate now e.date
    let acc :=
      if assocContains acc key then acc
      else
        assocSet acc key
          { rating_key := key
            title := showTitleOf e
            episodes := []
            firstWatched := watchDate
            lastWatched := watchDate
            totalDuration := 0
            thumb := if strTruthy e.thumb then e.thumb else none }
    assocUpdate acc key (pushEpisode e watchDate)

/-- The whole `showMap` accumulation. -/
def buildShowMap (now : Int) (events : List RawEpisode) : List (Option Nat × ShowGroup) :=
  events.foldl (showMapStep now) []

/-- A processed show display card. -/
structure ProcShow where
  rating_key : Option Nat
  title : String
  watchDate : Int
  year : Int
  releaseYear : Option Int
  thumb : Option String
  duration : Int
  episodeCount : Nat
  deriving DecidableEq, Repr

/-- `Array.from(showMap.values()).map((show) => ...)`. -/
def toProcShow (g : ShowGroup) : ProcShow :=
  { rating_key := g.rating_key
    title := g.title
    watchDate := g.lastWatched
    year := getFullYear g.lastWatched
    releaseYear :=
      match g.episodes.head? with
      | none => none
      | some e => if intTruthy e.year then e.year else none
    thumb := g.thumb
    duration := g.totalDuration
    episodeCount := g.episodes.length }

/-- `processedShows` in the TV loader. -/
def processedShows (now : Int) (events : List RawEpisode) : List ProcShow :=
  (buildShowMap now events).map (fun p => toProcShow p.2)

/-- Strip leading and trailing whitespace from a character list. -/
def trimChars (l : List Char) : List Char :=
  ((l.dropWhile Char.isWhitespace).reverse.dropWhile Char.isWhitespace).reverse

/-- `show.title.toLowerCase().trim()`, computed on the character list. -/
def normalizedTitle (s : String) : String :=
  String.mk (trimChars (s.data.map Char.toLower))

/-- Whether a later show replaces the one already kept for its title:
more episodes, or equally many and a more recent last watch. -/
def showBeats (challenger incumbent : ProcShow) : Bool :=
  challenger.episodeCount > incumbent.episodeCount ||
    (challenger.episodeCount == incumbent.episodeCount &&
      challenger.watchDate > incumbent.watchDate)

/-- One iteration of the title-merge fold (`processedShows.forEach`). -/
def dedupShowsStep (st : List ProcShow × List (String × ProcShow)) (s : ProcShow) :
    List ProcShow × List (String × ProcShow) :=
  let (dedup, byTitle) := st
  let t := normalizedTitle s.title
  match assocLookup byTitle t with
  | none => (dedup ++ [s], assocSet byTitle t s)
  | some existing =>
    if showBeats s existing then
      match dedup.findIdx? (fun x => x == existing) with
      | some i => (dedup.set i s, assocSet byTitle t s)
      | none => (dedup, byTitle)
    else (dedup, byTitle)

/-- `deduplicatedShows`: merge shows whose titles normalise identically. -/
def dedupShows (shows : List ProcShow) : List ProcShow :=
  (shows.foldl dedupShowsStep ([], [])).1

/-- One iteration of the `releaseYearsByRatingKey` accumulation
(`if (show.rating_key && show.releaseYear)` then `Map.set`). -/
def releaseYearStep (acc : List (Option Nat × Int)) (s : ProcShow) :
    List (Option Nat × Int) :=
  if natTruthy s.rating_key ∧ intTruthy s.releaseYear then
    assocSet acc s.rating_key (s.releaseYear.getD 0)
  else acc

/-- `releaseYearsByRatingKey` in the TV view's `getTop3ForYear`. -/
def releaseYearsByRatingKey (shows : List ProcShow) : List (Option Nat × Int) :=
  shows.foldl releaseYearStep []

/-- `getTop3ForYear` in the TV view: filter the ranking list to the shows
*released* in the target year, take the first three, return their titles. -/
def getTop3ForYearTV (targetYear : Int) (shows : List ProcShow)
    (rankings : List RankingEntry) : List String :=
  let ry := releaseYearsByRatingKey shows
  ((rankings.filter (fun r => assocLookup ry r.rating_key == some targetYear)).take 3).map
    (fun r => r.title)

/-! ### Comics: top-3 (both variants of `getTop3ForYear`) -/

/-- A processed comic read record (an `allReadData`/`comics` element): the
comics loader stores the series id also as `rating_key`, the read instant
as `watchDate`, the read year, and the issue-level release year when one
was parsed (null otherwise). -/
structure ProcComic where
  rating_key : Option Nat
  seriesId : Option Nat
  watchDate : Option Int
  year : Option Int
  readYear : Option Int
  issueReleaseYear : Option Int
  deriving DecidableEq, Repr

/-- `comic.seriesId || comic.rating_key`. -/
def comicKeyOf (c : ProcComic) : Option Nat :=
  jsOrNat c.seriesId c.rating_key

/-- `comic.watchDate ? comic.watchDate.getFullYear() : (comic.year || null)`. -/
def comicReadYearOf (c : ProcComic) : Option Int :=
  match c.watchDate with
  | some wd => some (getFullYear wd)
  | none => if intTruthy c.year then c.year else none

/-- `comic.readYear || (comic.watchDate ? ... : (comic.year || null))`,
the read year used by the strict (read-and-released) comics top-3. -/
def comicReadYearStrict (c : ProcComic) : Option Int :=
  if intTruthy c.readYear then c.readYear else comicReadYearOf c

/-- The `eligibleSeries` set of the strict comics `getTop3ForYear`: series
with at least one issue whose read year and explicit issue release year
both equal the target year (`Set` modelled as a duplicate-free list). -/
def eligibleComicSeries (targetYear : Int) (allReadData : List ProcComic) :
    List (Option Nat) :=
  allReadData.foldl
    (fun s c =>
      let key := comicKeyOf c
      if ¬ natTruthy key then s
      else if comicReadYearStrict c = some targetYear ∧ c.issueReleaseYear ≠ none ∧
          c.issueReleaseYear = some targetYear then
        if key ∈ s then s else s ++ [key]
      else s)
    []

/-- The comics `getTop3ForYear` staged in the movies view: filter the
ranking list to series with an issue both read and released in the target
year, then take the first three. -/
def getTop3ForYearComicsStrict (targetYear : Int) (allReadData : List ProcComic)
    (rankings : List RankingEntry) : List RankingEntry :=
  let eligible := eligibleComicSeries targetYear allReadData
  (rankings.filter (fun r =>
    natTruthy r.rating_key && eligible.contains r.rating_key)).take 3

/-- One iteration of the `readYearsByRatingKey` loops in the comics view's
own `getTop3ForYear`: keep the most recent read year per series (the
`!existing || readYear > existing` update, with JavaScript's falsy `0`). -/
def readYearStep (acc : List (Option Nat × Int)) (c : ProcComic) :
    List (Option Nat × Int) :=
  let key := comicKeyOf c
  if natTruthy key then
    match comicReadYearOf c with
    | none => acc
    | some readYear =>
      match assocLookup acc key with
      | none => assocSet acc key readYear
      | some existing =>
        if existing = 0 ∨ readYear > existing then assocSet acc key readYear
        else acc
  else acc

/-- The comics view's own `getTop3ForYear`: most recent read year per
series, accumulated over `allReadData` and then the deduplicated comics
list, then filter the ranking list to the series read in the target year
and take the first three. -/
def getTop3ForYearComicsRead (targetYear : Int) (allReadData comics : List ProcComic)
    (rankings : List RankingEntry) : List RankingEntry :=
  let ry := comics.foldl readYearStep (allReadData.foldl readYearStep [])
  (rankings.filter (fun r =>
    natTruthy r.rating_key && (assocLookup ry r.rating_key == some targetYear))).take 3

/-! ### The two-tier client cache (`DataCache`) -/

/-- One stored cache record (`{ value, timestamp }`). -/
structure CacheEntry (α : Type) where
  value : α
  timestamp : Int
  deriving DecidableEq, Repr

/-- The two tiers: the in-memory `Map` and the IndexedDB object store. -/
structure CacheState (α : Type) where
  memoryCache : List (String × CacheEntry α)
  db : List (String × CacheEntry α)
  deriving DecidableEq, Repr

/-- `CACHE_EXPIRATION_MS = 24 * 60 * 60 * 1000`. -/
def CACHE_EXPIRATION_MS : Int := 24 * 60 * 60 * 1000

/-- The IndexedDB half of `DataCache.get`: a fresh entry is promoted to the
memory tier and returned, an expired entry (`result && result.timestamp`
truthy but too old) is deleted, anything else is a miss. -/
def cacheGetDB (now : Int) (key : String) (s : CacheState α) :
    Option α × CacheState α :=
  match assocLookup s.db key with
  | some r =>
    if r.timestamp ≠ 0 then
      if now - r.timestamp < CACHE_EXPIRATION_MS then
        (some r.value, { s with memoryCache := assocSet s.memoryCache key r })
      else
        (none, { s with db := assocErase s.db key })
    else (none, s)
  | none => (none, s)

/-- `DataCache.get`: memory tier first (expired memory entries are deleted
and the durable tier is consulted), then the durable tier. -/
def cacheGet (now : Int) (key : String) (s : CacheState α) :
    Option α × CacheState α :=
  match assocLookup s.memoryCache key with
  | some c =>
    if now - c.timestamp < CACHE_EXPIRATION_MS then (some c.value, s)
    else cacheGetDB now key { s with memoryCache := assocErase s.memoryCache key }
  | none => cacheGetDB now key s

/-- `DataCache.set`: write both tiers with the current timestamp. -/
def cacheSet (now : Int) (key : String) (v : α) (s : CacheState α) : CacheState α :=
  { memoryCache := assocSet s.memoryCache key ⟨v, now⟩
    db := assocSet s.db key ⟨v, now⟩ }

/-! ### HTTP proxy rankings endpoints -/

/-- A parsed JSON request body, as far as the rankings handler inspects it. -/
inductive JsBody where
  | jsNull
  | jsStr (s : String)
  | jsNum (n : Int)
  | jsBool (b : Bool)
  | jsArr (l : List RankingEntry)
  | jsObj
  deriving DecidableEq, Repr

/-- JavaScript truthiness of a request body (`if (!rankings)`). -/
def bodyTruthy : JsBody → Bool
  | .jsNull => false
  | .jsStr s => s != ""
  | .jsNum n => n != 0
  | .jsBool b => b
  | .jsArr _ => true
  | .jsObj => true

/-- `Array.isArray(rankings)`. -/
def bodyIsArray : JsBody → Bool
  | .jsArr _ => true
  | _ => false

/-- `getRankingsPath`: anything that is not `tv` or `comics` resolves to
the movies ranking file. -/
def getRankingsPath (contentType : String) : String :=
  if contentType = "tv" then "tv-rankings.json"
  else if contentType = "comics" then "comic-rankings.json"
  else "movie-rankings.json"

/-- The ranking files on disk, each holding a parsed JSON array. -/
abbrev RankingsFS : Type := List (String × List RankingEntry)

/-- The handler's HTTP answer. -/
structure RankingsResponse where
  status : Nat
  count : Option Nat
  error : Option String
  deriving DecidableEq, Repr

/-- `GET /api/rankings/:contentType`: read the file, empty list if absent. -/
def getRankingsHandler (contentType : String) (fs : RankingsFS) : List RankingEntry :=
  (assocLookup fs (getRankingsPath contentType)).getD []

/-- `POST /api/rankings/:contentType`: reject a falsy or non-array body
with 400 and leave the disk alone, else overwrite the file and report the
saved count. -/
def postRankingsHandler (contentType : String) (body : JsBody) (fs : RankingsFS) :
    RankingsResponse × RankingsFS :=
  if ¬ bodyTruthy body then
    ({ status := 400, count := none, error := some "No rankings data provided" }, fs)
  else if ¬ bodyIsArray body then
    ({ status := 400, count := none, error := some "Rankings must be an array" }, fs)
  else
    match body with
    | .jsArr l =>
      ({ status := 200, count := some l.length, error := none },
        assocSet fs (getRankingsPath contentType) l)
    | _ => ({ status := 400, count := none, error := some "Rankings must be an array" }, fs)

/-! ### Ranking editor operations (`AdminRankingTab`) -/

/-- `addToRankings`: append unless the identity is already present. -/
def addToRankings (m : RankingEntry) (l : List RankingEntry) : List RankingEntry :=
  if l.any (fun r => r.rating_key == m.rating_key) then l
  else l ++ [m]

/-- `removeFromRankings`: keep every entry whose identity differs. -/
def removeFromRankings (ratingKey : Option Nat) (l : List RankingEntry) :
    List RankingEntry :=
  l.filter (fun r => r.rating_key ≠ ratingKey)

/-- The `handleDrop` reorder: splice the source entry out, then splice it
back in at the destination, adjusted by one when the removal shifted it
(JavaScript `splice` clamps an oversized insertion index to the end). -/
def handleDropMove (sourceIndex dropIndex : Nat) (l : List RankingEntry) :
    List RankingEntry :=
  if sourceIndex = dropIndex then l
  else if h : sourceIndex < l.length then
    let draggedItem := l.get ⟨sourceIndex, h⟩
    let removed := l.eraseIdx sourceIndex
    let adjusted := if sourceIndex < dropIndex then dropIndex - 1 else dropIndex
    removed.insertIdx (min adjusted removed.length) draggedItem
  else l

/-- The identities of a ranking list, in order. -/
def rankingKeys (l : List RankingEntry) : List (Option Nat) :=
  l.map (fun r => r.rating_key)

/-! ### Association-list lemmas -/

theorem assocLookup_assocSet_self [DecidableEq κ] (l : List (κ × ν)) (k : κ) (v : ν) :
    assocLookup (assocSet l k v) k = some v := by
  induction l with
  | nil => simp [assocSet, assocLookup]
  | cons p rest ih =>
    obtain ⟨k', w⟩ := p
    by_cases h : k' = k <;> simp [assocSet, assocLookup, h, ih]

theorem assocLookup_assocSet_ne [DecidableEq κ] (l : List (κ × ν)) (k k' : κ) (v : ν)
    (h : k ≠ k') : assocLookup (assocSet l k v) k' = assocLookup l k' := by
  induction l with
  | nil => simp [assocSet, assocLookup, h]
  | cons p rest ih =>
    obtain ⟨k'', w⟩ := p
    by_cases h2 : k'' = k
    · subst h2; simp [assocSet, assocLookup, h]
    · by_cases h3 : k'' = k' <;> simp [assocSet, assocLookup, h2, h3, ih, Ne.symm h]

theorem assocLookup_assocErase_self [DecidableEq κ] (l : List (κ × ν)) (k : κ) :
    assocLookup (assocErase l k) k = none := by
  induction l with
  | nil => simp [assocErase, assocLookup]
  | cons p rest ih =>
    obtain ⟨k', w⟩ := p
    by_cases h : k' = k
    · simpa [assocErase, h] using ih
    · simpa [assocErase, assocLookup, h] using ih

/-! ### Claim theorems -/

/-- C6: for every key, when every stored copy of the entry (in-memory tier
and durable tier) carries a positive timestamp older than the 24-hour TTL
at the time of the next `get`, that `get` is a miss (`none`) and the
expired entry is deleted from both tiers rather than being returned. -/
theorem cache_get_expired_is_miss_and_deleted {α : Type} (now : Int) (key : String)
    (s : CacheState α)
    (hmem : (assocLookup s.memoryCache key).all
      (fun c => decide (CACHE_EXPIRATION_MS ≤ now - c.timestamp)) = true)
    (hdb : (assocLookup s.db key).all
      (fun r => decide (0 < r.timestamp) &&
        decide (CACHE_EXPIRATION_MS ≤ now - r.timestamp)) = true) :
    (cacheGet now key s).1 = none ∧
    assocLookup (cacheGet now key s).2.memoryCache key = none ∧
    assocLookup (cacheGet now key s).2.db key = none := by
  unfold cacheGet
  cases hm : assocLookup s.memoryCache key with
  | some c =>
    rw [hm] at hmem
    simp only [Option.all_some, decide_eq_true_eq] at hmem
    have hfresh : ¬ (now - c.timestamp < CACHE_EXPIRATION_MS) := by omega
    simp only [hm, if_neg hfresh]
    unfold cacheGetDB
    cases hd : assocLookup s.db key with
    | some r =>
      rw [hd] at hdb
      simp only [Option.all_some, Bool.and_eq_true, decide_eq_true_eq] at hdb
      have hts : r.timestamp ≠ 0 := by omega
      have hdfresh : ¬ (now - r.timestamp < CACHE_EXPIRATION_MS) := by omega
      simp [hd, hts, hdfresh, assocLookup_assocErase_self]
    | none => simp [hd, assocLookup_assocErase_self]
  | none =>
    simp only [hm]
    unfold cacheGetDB
    cases hd : assocLookup s.db key with
    | some r =>
      rw [hd] at hdb
      simp only [Option.all_some, Bool.and_eq_true, decide_eq_true_eq] at hdb
      have hts : r.timestamp ≠ 0 := by omega
      have hdfresh : ¬ (now - r.timestamp < CACHE_EXPIRATION_MS) := by omega
      simp [hd, hts, hdfresh, assocLookup_assocErase_self, hm]
    | none => simp [hd, hm]

/-- Witness for C6 at a concrete expired two-tier state. -/
theorem cache_get_expired_is_miss_and_deleted_witness :
    (cacheGet 90000000 "movies" (⟨[("movies", ⟨(5 : Nat), 1⟩)], [("movies", ⟨7, 2⟩)]⟩)).1 = none ∧
    assocLookup (cacheGet 90000000 "movies"
      (⟨[("movies", ⟨(5 : Nat), 1⟩)], [("movies", ⟨7, 2⟩)]⟩ : CacheState Nat)).2.memoryCache
      "movies" = none ∧
    assocLookup (cacheGet 90000000 "movies"
      (⟨[("movies", ⟨(5 : Nat), 1⟩)], [("movies", ⟨7, 2⟩)]⟩ : CacheState Nat)).2.db
      "movies" = none :=
  cache_get_expired_is_miss_and_deleted 90000000 "movies" _ (by decide) (by decide)

/-- C7: a `POST /api/rankings/:contentType` whose body is not an array is
answered with status 400 and leaves the ranking files untouched; an array
body is written to the content type's ranking file and the response
reports success with the array's length as the count. -/
theorem post_rankings_validates_array_body (ct : String) (body : JsBody) (fs : RankingsFS) :
    (bodyIsArray body = false →
      (postRankingsHandler ct body fs).1.status = 400 ∧
      (postRankingsHandler ct body fs).2 = fs) ∧
    (∀ l : List RankingEntry, body = .jsArr l →
      (postRankingsHandler ct body fs).1.status = 200 ∧
      (postRankingsHandler ct body fs).1.count = some l.length ∧
      assocLookup (postRankingsHandler ct body fs).2 (getRankingsPath ct) = some l) := by
  constructor
  · intro hna
    cases body <;> simp_all [postRankingsHandler, bodyTruthy, bodyIsArray] <;> split <;> simp
  · rintro l rfl
    simp [postRankingsHandler, bodyTruthy, bodyIsArray, assocLookup_assocSet_self]

/-- Witness for C7: the spec's own scenario (string body) plus an array body. -/
theorem post_rankings_validates_array_body_witness :
    ((postRankingsHandler "movies" (.jsStr "not an array")
        [("movie-rankings.json", [⟨some 7, "X"⟩])]).1.status = 400 ∧
      (postRankingsHandler "movies" (.jsStr "not an array")
        [("movie-rankings.json", [⟨some 7, "X"⟩])]).2 =
        [("movie-rankings.json", [⟨some 7, "X"⟩])]) ∧
    ((postRankingsHandler "movies" (.jsArr [⟨some 9, "Y"⟩]) []).1.status = 200 ∧
      (postRankingsHandler "movies" (.jsArr [⟨some 9, "Y"⟩]) []).1.count = some 1 ∧
      assocLookup (postRankingsHandler "movies" (.jsArr [⟨some 9, "Y"⟩]) []).2
        (getRankingsPath "movies") = some [⟨some 9, "Y"⟩]) :=
  ⟨(post_rankings_validates_array_body "movies" (.jsStr "not an array")
      [("movie-rankings.json", [⟨some 7, "X"⟩])]).1 (by decide),
    (post_rankings_validates_array_body "movies" (.jsArr [⟨some 9, "Y"⟩]) []).2
      [⟨some 9, "Y"⟩] rfl⟩

/-- C9: every content type other than `tv` and `comics` resolves to the
movies ranking file, so a GET for an unknown content type returns the
movies ranking list and a POST overwrites it. -/
theorem unknown_content_type_uses_movies_file (ct : String) (fs : RankingsFS)
    (l : List RankingEntry) (h1 : ct ≠ "tv") (h2 : ct ≠ "comics") :
    getRankingsPath ct = "movie-rankings.json" ∧
    getRankingsHandler ct fs = getRankingsHandler "movies" fs ∧
    (postRankingsHandler ct (.jsArr l) fs).2 = assocSet fs "movie-rankings.json" l ∧
    getRankingsHandler "movies" (postRankingsHandler ct (.jsArr l) fs).2 = l := by
  have hp : getRankingsPath ct = "movie-rankings.json" := by
    simp [getRankingsPath, h1, h2]
  refine ⟨hp, ?_, ?_, ?_⟩
  · simp only [getRankingsHandler, hp]
    simp [getRankingsPath]
  · simp only [postRankingsHandler, bodyTruthy, bodyIsArray, hp]
    simp
  · simp only [postRankingsHandler, bodyTruthy, bodyIsArray, hp, getRankingsHandler]
    simp [getRankingsPath, assocLookup_assocSet_self]

/-- Witness for C9 at the arbitrary content type `anything`. -/
theorem unknown_content_type_uses_movies_file_witness :
    getRankingsPath "anything" = "movie-rankings.json" ∧
    getRankingsHandler "anything" [("movie-rankings.json", [⟨some 7, "X"⟩])] =
      getRankingsHandler "movies" [("movie-rankings.json", [⟨some 7, "X"⟩])] ∧
    (postRankingsHandler "anything" (.jsArr [⟨some 9, "Y"⟩])
      [("movie-rankings.json", [⟨some 7, "X"⟩])]).2 =
      assocSet [("movie-rankings.json", [⟨some 7, "X"⟩])] "movie-rankings.json"
        [⟨some 9, "Y"⟩] ∧
    getRankingsHandler "movies" (postRankingsHandler "anything" (.jsArr [⟨some 9, "Y"⟩])
      [("movie-rankings.json", [⟨some 7, "X"⟩])]).2 = [⟨some 9, "Y"⟩] :=
  unknown_content_type_uses_movies_file "anything" _ _ (by decide) (by decide)

/-- C10: a movie record whose `date` is neither a number nor a string gets
the current wall-clock instant as its watch date, is bucketed in the
current year, and is still included in the processed list. -/
theorem missing_date_defaults_to_now (now : Int) (m : RawMovie) (l : List RawMovie)
    (hd : m.date = .other) (hm : m ∈ l) :
    (processMovie now m).watchDate = now ∧
    (processMovie now m).year = getFullYear now ∧
    processMovie now m ∈ processMovies now l ∧
    (processMovies now l).length = l.length := by
  refine ⟨?_, ?_, ?_, ?_⟩
  · simp [processMovie, hd, parseWatchDate]
  · simp [processMovie, hd, parseWatchDate]
  · exact List.mem_map_of_mem _ hm
  · simp [processMovies]

/-- Witness for C10: a dateless record among two records. -/
theorem missing_date_defaults_to_now_witness :
    (processMovie 1700000000000 ⟨some 4, some "M", .other, none⟩).watchDate =
      1700000000000 ∧
    (processMovie 1700000000000 ⟨some 4, some "M", .other, none⟩).year =
      getFullYear 1700000000000 ∧
    processMovie 1700000000000 ⟨some 4, some "M", .other, none⟩ ∈
      processMovies 1700000000000
        [⟨some 3, some "N", .num 0, none⟩, ⟨some 4, some "M", .other, none⟩] ∧
    (processMovies 1700000000000
      [⟨some 3, some "N", .num 0, none⟩, ⟨some 4, some "M", .other, none⟩]).length = 2 :=
  missing_date_defaults_to_now 1700000000000 ⟨some 4, some "M", .other, none⟩ _ rfl
    (by simp)

/-- C8: the ranking editor's list never acquires two entries with the same
identity: add, remove and drag-reorder all preserve distinctness of the
`rating_key`s, and add is a no-op when the identity is already present. -/
theorem ranking_ops_preserve_key_nodup (l : List RankingEntry) (m : RankingEntry)
    (k : Option Nat) (s d : Nat) (h : (rankingKeys l).Nodup) :
    (rankingKeys (addToRankings m l)).Nodup ∧
    (rankingKeys (removeFromRankings k l)).Nodup ∧
    (rankingKeys (handleDropMove s d l)).Nodup ∧
    ((∃ r ∈ l, r.rating_key = m.rating_key) → addToRankings m l = l) := by
  refine ⟨?_, ?_, ?_, ?_⟩
  · unfold addToRankings
    split
    · exact h
    · rename_i hany
      have hnot : m.rating_key ∉ rankingKeys l := by
        intro hmem
        obtain ⟨r, hr, hkey⟩ := List.mem_map.mp hmem
        exact hany (List.any_eq_true.mpr ⟨r, hr, by simp [hkey]⟩)
      have : rankingKeys (l ++ [m]) = rankingKeys l ++ [m.rating_key] := by
        simp [rankingKeys]
      rw [this]
      exact ((List.perm_append_singleton _ _).nodup_iff).mpr (h.cons hnot)
  · exact h.sublist (List.Sublist.map _ (List.filter_sublist l))
  · unfold handleDropMove
    split
    · exact h
    · split
      · rename_i hne hlt
        have hperm : List.Perm
            ((l.eraseIdx s).insertIdx
              (min (if s < d then d - 1 else d) (l.eraseIdx s).length)
              (l.get ⟨s, hlt⟩)) l := by
          refine (List.perm_insertIdx _ _ (Nat.min_le_right _ _)).trans ?_
          refine (List.Perm.cons _ (List.erase_getElem hlt).symm).trans ?_
          exact (List.perm_cons_erase (l.getElem_mem hlt)).symm
        exact ((hperm.map _).nodup_iff).mpr h
      · exact h
  · intro ⟨r, hr, hkey⟩
    unfold addToRankings
    rw [if_pos (List.any_eq_true.mpr ⟨r, hr, by simp [hkey]⟩)]

/-- Witness for C8 on a concrete two-entry list. -/
theorem ranking_ops_preserve_key_nodup_witness :
    (rankingKeys (addToRankings ⟨some 9, "C"⟩ [⟨some 7, "A"⟩, ⟨some 8, "B"⟩])).Nodup ∧
    (rankingKeys (removeFromRankings (some 7) [⟨some 7, "A"⟩, ⟨some 8, "B"⟩])).Nodup ∧
    (rankingKeys (handleDropMove 0 1 [⟨some 7, "A"⟩, ⟨some 8, "B"⟩])).Nodup ∧
    ((∃ r ∈ [(⟨some 7, "A"⟩ : RankingEntry), ⟨some 8, "B"⟩],
        r.rating_key = (⟨some 9, "C"⟩ : RankingEntry).rating_key) →
      addToRankings ⟨some 9, "C"⟩ [⟨some 7, "A"⟩, ⟨some 8, "B"⟩] =
        [⟨some 7, "A"⟩, ⟨some 8, "B"⟩]) :=
  ranking_ops_preserve_key_nodup [⟨some 7, "A"⟩, ⟨some 8, "B"⟩] ⟨some 9, "C"⟩
    (some 7) 0 1 (by decide)

/-! ### Lemmas about the consecutive-duplicate collapse -/

theorem collapseGo_chain' (xs : List ProcMovie) :
    ∀ prev, List.Chain' (fun a b : ProcMovie => a.rating_key ≠ b.rating_key)
      (prev :: collapseConsecutive.collapseGo prev xs) := by
  induction xs with
  | nil => intro prev; simp [collapseConsecutive.collapseGo]
  | cons y ys ih =>
    intro prev
    by_cases hk : y.rating_key ≠ prev.rating_key
    · rw [show collapseConsecutive.collapseGo prev (y :: ys) =
          y :: collapseConsecutive.collapseGo y ys by
        simp [collapseConsecutive.collapseGo, hk]]
      exact (List.chain'_cons).mpr ⟨Ne.symm hk, ih y⟩
    · rw [show collapseConsecutive.collapseGo prev (y :: ys) =
          collapseConsecutive.collapseGo y ys by
        simp [collapseConsecutive.collapseGo, hk]]
      have hkey : y.rating_key = prev.rating_key := not_not.mp hk
      have hy := (List.chain'_cons').mp (ih y)
      exact (List.chain'_cons').mpr
        ⟨fun h hh => by rw [← hkey]; exact hy.1 h hh, hy.2⟩

theorem collapseGo_eq_of_chain' (xs : List ProcMovie) :
    ∀ prev, List.Chain' (fun a b : ProcMovie => a.rating_key ≠ b.rating_key) (prev :: xs) →
      collapseConsecutive.collapseGo prev xs = xs := by
  induction xs with
  | nil => intro prev _; simp [collapseConsecutive.collapseGo]
  | cons y ys ih =>
    intro prev hc
    obtain ⟨hR, hc2⟩ := (List.chain'_cons).mp hc
    simp only [collapseConsecutive.collapseGo, ne_eq, Ne.symm hR, not_false_eq_true,
      if_pos, ite_true]
    rw [ih y hc2]

theorem collapse_eq_of_chain' (l : List ProcMovie)
    (h : List.Chain' (fun a b : ProcMovie => a.rating_key ≠ b.rating_key) l) :
    collapseConsecutive l = l := by
  cases l with
  | nil => rfl
  | cons x xs =>
    simp only [collapseConsecutive]
    rw [collapseGo_eq_of_chain' xs x h]

/-- C3: for a movie event list sorted descending by timestamp, the display
list obtained by collapsing immediately consecutive duplicates has no two
adjacent entries with the same `rating_key`, collapsing it again changes
nothing, and the full unfiltered event list is retained separately. -/
theorem movie_display_dedup_adjacent_distinct_idem (l : List ProcMovie)
    (hsorted : List.Chain' (fun a b : ProcMovie => b.watchDate ≤ a.watchDate) l) :
    List.Chain' (fun a b : ProcMovie => a.rating_key ≠ b.rating_key)
      (loadMovies l).display ∧
    collapseConsecutive (loadMovies l).display = (loadMovies l).display ∧
    (loadMovies l).allWatchData = l := by
  have hchain : List.Chain' (fun a b : ProcMovie => a.rating_key ≠ b.rating_key)
      (loadMovies l).display := by
    cases l with
    | nil => simp [loadMovies, collapseConsecutive]
    | cons x xs =>
      simpa [loadMovies, collapseConsecutive] using collapseGo_chain' xs x
  exact ⟨hchain, collapse_eq_of_chain' _ hchain, rfl⟩

/-- Witness for C3 on the spec's own scenario shape (A, A, B sorted
descending becomes B then A on display while statistics keep all three). -/
theorem movie_display_dedup_adjacent_distinct_idem_witness :
    List.Chain' (fun a b : ProcMovie => a.rating_key ≠ b.rating_key)
      (loadMovies [⟨some 2, "B", .num 9, 9000, 1970, none⟩,
        ⟨some 1, "A", .num 0, 5, 1970, none⟩,
        ⟨some 1, "A", .num 0, 0, 1970, none⟩]).display ∧
    collapseConsecutive (loadMovies [⟨some 2, "B", .num 9, 9000, 1970, none⟩,
        ⟨some 1, "A", .num 0, 5, 1970, none⟩,
        ⟨some 1, "A", .num 0, 0, 1970, none⟩]).display =
      (loadMovies [⟨some 2, "B", .num 9, 9000, 1970, none⟩,
        ⟨some 1, "A", .num 0, 5, 1970, none⟩,
        ⟨some 1, "A", .num 0, 0, 1970, none⟩]).display ∧
    (loadMovies [⟨some 2, "B", .num 9, 9000, 1970, none⟩,
        ⟨some 1, "A", .num 0, 5, 1970, none⟩,
        ⟨some 1, "A", .num 0, 0, 1970, none⟩]).allWatchData =
      [⟨some 2, "B", .num 9, 9000, 1970, none⟩,
        ⟨some 1, "A", .num 0, 5, 1970, none⟩,
        ⟨some 1, "A", .num 0, 0, 1970, none⟩] :=
  movie_display_dedup_adjacent_distinct_idem _ (by norm_num [List.chain'_cons])

/-- C1: for every content type — movies, TV and both comics variants —
the top-3-for-year output is the ranking list filtered to that year's
eligible identities with the ranking order preserved and the first three
taken; hence it is a sublist of the full ranking list (movies and comics
directly, TV after projecting entries to titles) of length at most three,
never independently sorted. -/
theorem top3_for_year_is_filtered_ranking_prefix (y : Int) (aw : List ProcMovie)
    (shows : List ProcShow) (ard cm : List ProcComic) (rk : List RankingEntry) :
    getTop3ForYearMovies y aw rk =
      (rk.filter (fun r =>
        assocLookup (firstWatchDates aw) r.rating_key == some y)).take 3 ∧
    (getTop3ForYearMovies y aw rk).Sublist rk ∧
    (getTop3ForYearMovies y aw rk).length ≤ 3 ∧
    (∃ sub : List RankingEntry, sub.Sublist rk ∧ sub.length ≤ 3 ∧
      getTop3ForYearTV y shows rk = sub.map (fun r => r.title)) ∧
    getTop3ForYearComicsStrict y ard rk =
      (rk.filter (fun r => natTruthy r.rating_key &&
        (eligibleComicSeries y ard).contains r.rating_key)).take 3 ∧
    (getTop3ForYearComicsStrict y ard rk).Sublist rk ∧
    (getTop3ForYearComicsStrict y ard rk).length ≤ 3 ∧
    getTop3ForYearComicsRead y ard cm rk =
      (rk.filter (fun r => natTruthy r.rating_key &&
        (assocLookup (cm.foldl readYearStep (ard.foldl readYearStep []))
          r.rating_key == some y))).take 3 ∧
    (getTop3ForYearComicsRead y ard cm rk).Sublist rk ∧
    (getTop3ForYearComicsRead y ard cm rk).length ≤ 3 := by
  refine ⟨rfl, ?_, ?_, ?_, rfl, ?_, ?_, rfl, ?_, ?_⟩
  · exact (List.take_sublist _ _).trans (List.filter_sublist _)
  · simp [getTop3ForYearMovies, List.length_take]
  · have hsub : ((rk.filter (fun r =>
        assocLookup (releaseYearsByRatingKey shows) r.rating_key == some y)).take
          3).Sublist rk :=
      (List.take_sublist _ _).trans (List.filter_sublist _)
    exact ⟨_, hsub, by simp [List.length_take], rfl⟩
  · exact (List.take_sublist _ _).trans (List.filter_sublist _)
  · simp [getTop3ForYearComicsStrict, List.length_take]
  · exact (List.take_sublist _ _).trans (List.filter_sublist _)
  · simp [getTop3ForYearComicsRead, List.length_take]

/-- C5: two distinct show identities whose display titles normalise to the
same string are merged into a single display entry, keeping the show with
more accumulated episodes, and on an episode-count tie the one with the
more recent latest-watched timestamp. -/
theorem tv_title_merge_keeps_better_show (s1 s2 : ProcShow)
    (ht : normalizedTitle s1.title = normalizedTitle s2.title)
    (hk : s1.rating_key ≠ s2.rating_key) :
    (dedupShows [s1, s2]).length = 1 ∧
    (s1.episodeCount < s2.episodeCount → dedupShows [s1, s2] = [s2]) ∧
    (s2.episodeCount < s1.episodeCount → dedupShows [s1, s2] = [s1]) ∧
    (s1.episodeCount = s2.episodeCount → s1.watchDate < s2.watchDate →
      dedupShows [s1, s2] = [s2]) ∧
    (s1.episodeCount = s2.episodeCount → s2.watchDate ≤ s1.watchDate →
      dedupShows [s1, s2] = [s1]) := by
  have key : dedupShows [s1, s2] = if showBeats s2 s1 then [s2] else [s1] := by
    simp only [dedupShows, List.foldl, dedupShowsStep, assocLookup, assocSet, ht]
    simp
    split <;> rfl
  refine ⟨?_, ?_, ?_, ?_, ?_⟩
  · rw [key]; split <;> rfl
  · intro h
    have hb : showBeats s2 s1 = true := by
      simp only [showBeats, Bool.or_eq_true, decide_eq_true_eq]
      omega
    rw [key, if_pos hb]
  · intro h
    have hb : showBeats s2 s1 = false := by
      simp only [showBeats, Bool.or_eq_false_iff, Bool.and_eq_false_iff,
        decide_eq_false_iff_not, beq_eq_false_iff_ne, ne_eq]
      omega
    rw [key, if_neg (by simp [hb])]
  · intro h1 h2
    have hb : showBeats s2 s1 = true := by
      simp only [showBeats, Bool.or_eq_true, Bool.and_eq_true, decide_eq_true_eq,
        beq_iff_eq]
      omega
    rw [key, if_pos hb]
  · intro h1 h2
    have hb : showBeats s2 s1 = false := by
      simp only [showBeats, Bool.or_eq_false_iff, Bool.and_eq_false_iff,
        decide_eq_false_iff_not, beq_eq_false_iff_ne, ne_eq]
      omega
    rw [key, if_neg (by simp [hb])]

/-- Witness for C5: `Show ` and `show` merge, the larger show wins. -/
theorem tv_title_merge_keeps_better_show_witness :
    (dedupShows [⟨some 1, "Show ", 10, 1970, none, none, 0, 2⟩,
      ⟨some 2, "show", 20, 1970, none, none, 0, 3⟩]).length = 1 ∧
    ((⟨some 1, "Show ", 10, 1970, none, none, 0, 2⟩ : ProcShow).episodeCount <
        (⟨some 2, "show", 20, 1970, none, none, 0, 3⟩ : ProcShow).episodeCount →
      dedupShows [⟨some 1, "Show ", 10, 1970, none, none, 0, 2⟩,
        ⟨some 2, "show", 20, 1970, none, none, 0, 3⟩] =
        [⟨some 2, "show", 20, 1970, none, none, 0, 3⟩]) ∧
    ((⟨some 2, "show", 20, 1970, none, none, 0, 3⟩ : ProcShow).episodeCount <
        (⟨some 1, "Show ", 10, 1970, none, none, 0, 2⟩ : ProcShow).episodeCount →
      dedupShows [⟨some 1, "Show ", 10, 1970, none, none, 0, 2⟩,
        ⟨some 2, "show", 20, 1970, none, none, 0, 3⟩] =
        [⟨some 1, "Show ", 10, 1970, none, none, 0, 2⟩]) ∧
    ((⟨some 1, "Show ", 10, 1970, none, none, 0, 2⟩ : ProcShow).episodeCount =
        (⟨some 2, "show", 20, 1970, none, none, 0, 3⟩ : ProcShow).episodeCount →
      (⟨some 1, "Show ", 10, 1970, none, none, 0, 2⟩ : ProcShow).watchDate <
        (⟨some 2, "show", 20, 1970, none, none, 0, 3⟩ : ProcShow).watchDate →
      dedupShows [⟨some 1, "Show ", 10, 1970, none, none, 0, 2⟩,
        ⟨some 2, "show", 20, 1970, none, none, 0, 3⟩] =
        [⟨some 2, "show", 20, 1970, none, none, 0, 3⟩]) ∧
    ((⟨some 1, "Show ", 10, 1970, none, none, 0, 2⟩ : ProcShow).episodeCount =
        (⟨some 2, "show", 20, 1970, none, none, 0, 3⟩ : ProcShow).episodeCount →
      (⟨some 2, "show", 20, 1970, none, none, 0, 3⟩ : ProcShow).watchDate ≤
        (⟨some 1, "Show ", 10, 1970, none, none, 0, 2⟩ : ProcShow).watchDate →
      dedupShows [⟨some 1, "Show ", 10, 1970, none, none, 0, 2⟩,
        ⟨some 2, "show", 20, 1970, none, none, 0, 3⟩] =
        [⟨some 1, "Show ", 10, 1970, none, none, 0, 2⟩]) :=
  tv_title_merge_keeps_better_show
    ⟨some 1, "Show ", 10, 1970, none, none, 0, 2⟩
    ⟨some 2, "show", 20, 1970, none, none, 0, 3⟩ (by decide) (by decide)

/-! ### Lemmas for the episode-count accounting -/

/-- Total number of episode events stored across all show groups. -/
def sumEpisodes (l : List (Option Nat × ShowGroup)) : Nat :=
  (l.map (fun p => p.2.episodes.length)).sum

theorem sumEpisodes_assocSet_new (l : List (Option Nat × ShowGroup))
    (k : Option Nat) (g : ShowGroup) (h : assocLookup l k = none) :
    sumEpisodes (assocSet l k g) = sumEpisodes l + g.episodes.length := by
  induction l with
  | nil => simp [sumEpisodes, assocSet]
  | cons p rest ih =>
    obtain ⟨k', v⟩ := p
    by_cases hk : k' = k
    · simp [assocLookup, hk] at h
    · simp only [assocLookup, if_neg hk] at h
      have ih' := ih h
      simp only [sumEpisodes, assocSet, if_neg hk, List.map_cons, List.sum_cons] at ih' ⊢
      omega

theorem sumEpisodes_assocUpdate_push (l : List (Option Nat × ShowGroup))
    (k : Option Nat) (e : RawEpisode) (wd : Int)
    (h : (assocLookup l k).isSome = true) :
    sumEpisodes (assocUpdate l k (pushEpisode e wd)) = sumEpisodes l + 1 := by
  induction l with
  | nil => simp [assocLookup] at h
  | cons p rest ih =>
    obtain ⟨k', v⟩ := p
    by_cases hk : k' = k
    · simp [sumEpisodes, assocUpdate, hk, pushEpisode]
      omega
    · simp only [assocLookup, if_neg hk] at h
      have ih' := ih h
      simp only [sumEpisodes, assocUpdate, if_neg hk, List.map_cons, List.sum_cons] at ih' ⊢
      omega

theorem sumEpisodes_showMapStep (now : Int) (acc : List (Option Nat × ShowGroup))
    (e : RawEpisode) :
    sumEpisodes (showMapStep now acc e) =
      sumEpisodes acc + (if e.media_type = "episode" then 1 else 0) := by
  by_cases hmt : e.media_type = "episode"
  · have hstep : showMapStep now acc e =
        assocUpdate
          (if assocContains acc (showKeyOf e) = true then acc
            else assocSet acc (showKeyOf e)
              { rating_key := showKeyOf e, title := showTitleOf e, episodes := [],
                firstWatched := parseWatchDate now e.date,
                lastWatched := parseWatchDate now e.date, totalDuration := 0,
                thumb := if strTruthy e.thumb = true then e.thumb else none })
          (showKeyOf e) (pushEpisode e (parseWatchDate now e.date)) := by
      simp [showMapStep, hmt]
    rw [hstep, if_pos hmt]
    by_cases hc : assocContains acc (showKeyOf e) = true
    · rw [if_pos hc, sumEpisodes_assocUpdate_push _ _ _ _ hc]
    · have hnone : assocLookup acc (showKeyOf e) = none := by
        cases hl : assocLookup acc (showKeyOf e)
        · rfl
        · exact absurd (by rw [assocContains, hl]; rfl) hc
      rw [if_neg hc,
        sumEpisodes_assocUpdate_push _ _ _ _ (by rw [assocLookup_assocSet_self]; rfl),
        sumEpisodes_assocSet_new _ _ _ hnone]
      simp
  · simp [showMapStep, hmt]

theorem sumEpisodes_foldl (now : Int) (events : List RawEpisode) :
    ∀ acc, sumEpisodes (List.foldl (showMapStep now) acc events) =
      sumEpisodes acc + (events.filter (fun e => e.media_type == "episode")).length := by
  induction events with
  | nil => intro acc; simp
  | cons e rest ih =>
    intro acc
    rw [List.foldl_cons, ih, sumEpisodes_showMapStep]
    by_cases hmt : e.media_type = "episode" <;> simp [List.filter_cons, hmt] <;> omega

/-- C4: the sum over all show groups of that group's episode count equals
the number of episode events in the input: every episode event lands in
exactly one show group. -/
theorem tv_episode_counts_sum_to_event_count (now : Int) (events : List RawEpisode) :
    ((processedShows now events).map (fun s => s.episodeCount)).sum =
      (events.filter (fun e => e.media_type == "episode")).length := by
  have hmap : ((processedShows now events).map (fun s => s.episodeCount)).sum =
      sumEpisodes (buildShowMap now events) := by
    simp [processedShows, sumEpisodes, List.map_map]
    rfl
  rw [hmap, buildShowMap, sumEpisodes_foldl]
  simp [sumEpisodes]

/-! ### What the top-3 eligibility conditions actually are -/

/-- The watch years recorded for one identity (events with a truthy
`rating_key` equal to `k`), in event order. -/
def watchYearsOf (allWatchData : List ProcMovie) (k : Option Nat) : List Int :=
  (allWatchData.filter (fun m => natTruthy m.rating_key && (m.rating_key == k))).map
    (fun m => getFullYear m.watchDate)

/-- Left-fold minimum of a list of years. -/
def minFold : Option Int → List Int → Option Int
  | acc, [] => acc
  | none, y :: ys => minFold (some y) ys
  | some a, y :: ys => minFold (some (min a y)) ys

/-- The earliest year in which an identity was watched, if any. -/
def earliestWatchYear (allWatchData : List ProcMovie) (k : Option Nat) : Option Int :=
  minFold none (watchYearsOf allWatchData k)

/-- Fold picking the release year of the last matching show. -/
def lastReleaseYearFold (k : Option Nat) (o : Option Int) (shows : List ProcShow) :
    Option Int :=
  shows.foldl
    (fun o s =>
      if natTruthy s.rating_key ∧ intTruthy s.releaseYear ∧ s.rating_key = k then
        some (s.releaseYear.getD 0)
      else o)
    o

/-- The release year recorded for an identity: the last matching show wins. -/
def lastReleaseYearOf (shows : List ProcShow) (k : Option Nat) : Option Int :=
  lastReleaseYearFold k none shows

theorem assocLookup_firstWatchStep_ne (acc : List (Option Nat × Int)) (m : ProcMovie)
    (k : Option Nat) (hne : m.rating_key ≠ k) :
    assocLookup (firstWatchStep acc m) k = assocLookup acc k := by
  unfold firstWatchStep
  by_cases htr : natTruthy m.rating_key = true
  · simp only [htr, if_true, ite_true]
    cases hl : assocLookup acc m.rating_key with
    | none => exact assocLookup_assocSet_ne _ _ _ _ hne
    | some ex =>
      dsimp only
      by_cases hcond : ex = 0 ∨ getFullYear m.watchDate < ex
      · rw [if_pos hcond]
        exact assocLookup_assocSet_ne _ _ _ _ hne
      · rw [if_neg hcond]
  · simp [htr]

theorem firstWatch_lookup_eq_minFold (aw : List ProcMovie) (k : Option Nat) :
    ∀ acc, (∀ v, assocLookup acc k = some v → 0 < v) →
      (∀ m ∈ aw, 0 < getFullYear m.watchDate) →
      assocLookup (aw.foldl firstWatchStep acc) k =
        minFold (assocLookup acc k) (watchYearsOf aw k) := by
  induction aw with
  | nil => intro acc _ _; simp [watchYearsOf, minFold]
  | cons m rest ih =>
    intro acc hacc hpos
    have hposr : ∀ m' ∈ rest, 0 < getFullYear m'.watchDate :=
      fun m' hm' => hpos m' (List.mem_cons_of_mem _ hm')
    have hposm : 0 < getFullYear m.watchDate := hpos m (List.mem_cons_self _ _)
    rw [List.foldl_cons]
    by_cases htr : natTruthy m.rating_key = true
    · by_cases hkey : m.rating_key = k
      · subst hkey
        have hyears : watchYearsOf (m :: rest) m.rating_key =
            getFullYear m.watchDate :: watchYearsOf rest m.rating_key := by
          simp [watchYearsOf, List.filter_cons, htr]
        cases hl : assocLookup acc m.rating_key with
        | none =>
          have hstep : firstWatchStep acc m =
              assocSet acc m.rating_key (getFullYear m.watchDate) := by
            simp [firstWatchStep, htr, hl]
          have hacc' : ∀ v, assocLookup
              (assocSet acc m.rating_key (getFullYear m.watchDate)) m.rating_key =
                some v → 0 < v := by
            rw [assocLookup_assocSet_self]
            intro v hv
            cases hv
            exact hposm
          rw [hstep, ih _ hacc' hposr, assocLookup_assocSet_self, hyears]
          rfl
        | some ex =>
          have hex : 0 < ex := hacc ex hl
          by_cases hlt : getFullYear m.watchDate < ex
          · have hstep : firstWatchStep acc m =
                assocSet acc m.rating_key (getFullYear m.watchDate) := by
              simp [firstWatchStep, htr, hl, hlt]
            have hacc' : ∀ v, assocLookup
                (assocSet acc m.rating_key (getFullYear m.watchDate)) m.rating_key =
                  some v → 0 < v := by
              rw [assocLookup_assocSet_self]
              intro v hv
              cases hv
              exact hposm
            rw [hstep, ih _ hacc' hposr, assocLookup_assocSet_self, hyears]
            have : min ex (getFullYear m.watchDate) = getFullYear m.watchDate :=
              min_eq_right (le_of_lt hlt)
            simp [minFold, this]
          · have hstep : firstWatchStep acc m = acc := by
              have hcond : ¬ (ex = 0 ∨ getFullYear m.watchDate < ex) := by
                push_neg
                exact ⟨by omega, by omega⟩
              simp [firstWatchStep, htr, hl, hcond]
            rw [hstep, ih _ hacc hposr, hyears, hl]
            have : min ex (getFullYear m.watchDate) = ex :=
              min_eq_left (by omega)
            simp [minFold, this]
      · have hlk : assocLookup (firstWatchStep acc m) k = assocLookup acc k :=
          assocLookup_firstWatchStep_ne acc m k hkey
        have hacc' : ∀ v, assocLookup (firstWatchStep acc m) k = some v → 0 < v := by
          rw [hlk]; exact hacc
        have hb : (m.rating_key == k) = false := beq_eq_false_iff_ne.mpr hkey
        have hyears : watchYearsOf (m :: rest) k = watchYearsOf rest k := by
          simp [watchYearsOf, List.filter_cons, hb]
        rw [ih _ hacc' hposr, hlk, hyears]
    · have hstep : firstWatchStep acc m = acc := by simp [firstWatchStep, htr]
      have hyears : watchYearsOf (m :: rest) k = watchYearsOf rest k := by
        simp [watchYearsOf, List.filter_cons, htr]
      rw [hstep, ih _ hacc hposr, hyears]

theorem releaseYears_lookup_eq_last (shows : List ProcShow) (k : Option Nat) :
    ∀ acc, assocLookup (shows.foldl releaseYearStep acc) k =
      lastReleaseYearFold k (assocLookup acc k) shows := by
  induction shows with
  | nil => intro acc; rfl
  | cons s rest ih =>
    intro acc
    rw [List.foldl_cons]
    unfold lastReleaseYearFold
    rw [List.foldl_cons]
    by_cases hc : natTruthy s.rating_key ∧ intTruthy s.releaseYear
    · by_cases hkey : s.rating_key = k
      · subst hkey
        have hstep : releaseYearStep acc s =
            assocSet acc s.rating_key (s.releaseYear.getD 0) := by
          simp [releaseYearStep, hc]
        rw [hstep, ih, assocLookup_assocSet_self]
        simp [lastReleaseYearFold, hc]
      · have hstep : releaseYearStep acc s =
            assocSet acc s.rating_key (s.releaseYear.getD 0) := by
          simp [releaseYearStep, hc]
        have hcond : ¬ (natTruthy s.rating_key = true ∧ intTruthy s.releaseYear = true ∧
            s.rating_key = k) := by
          intro h
          exact hkey h.2.2
        rw [hstep, ih, assocLookup_assocSet_ne _ _ _ _ hkey]
        simp only [lastReleaseYearFold, if_neg hcond]
    · have hstep : releaseYearStep acc s = acc := by simp [releaseYearStep, hc]
      have hcond : ¬ (natTruthy s.rating_key = true ∧ intTruthy s.releaseYear = true ∧
          s.rating_key = k) := by
        intro h
        exact hc ⟨h.1, h.2.1⟩
      rw [hstep, ih]
      simp only [lastReleaseYearFold, if_neg hcond]

/-- C2 counterexample: watched-in-year is not the eligibility condition.
A movie identity watched in both 1970 and 1971 and ranked first is absent
from the 1971 movie top-3 (only the first watch year counts), and a show
watched only in 1971 with recorded release year 1960 is absent from the
1971 TV top-3 but present in the 1960 one. -/
theorem top3_watched_in_year_not_eligibility_cex :
    getFullYear (31536000000 : Int) = 1971 ∧
    getTop3ForYearMovies 1971
      [⟨some 7, "X", .num 31536000, 31536000000, 1971, none⟩,
        ⟨some 7, "X", .num 0, 0, 1970, none⟩]
      [⟨some 7, "X"⟩] = [] ∧
    getFullYear (⟨some 3, "S", 31536000000, 1971, some 1960, none, 0, 2⟩ :
      ProcShow).watchDate = 1971 ∧
    getTop3ForYearTV 1971 [⟨some 3, "S", 31536000000, 1971, some 1960, none, 0, 2⟩]
      [⟨some 3, "S"⟩] = [] ∧
    getTop3ForYearTV 1960 [⟨some 3, "S", 31536000000, 1971, some 1960, none, 0, 2⟩]
      [⟨some 3, "S"⟩] = ["S"] := by
  decide

/-- C2 (amended): the content-type-specific eligibility rules are: a
ranked movie is eligible for a year's top-3 exactly when the *earliest*
year in which it was watched equals the target year (a rewatch year does
not qualify), and a ranked TV show is eligible exactly when its recorded
release year (last matching show wins) equals the target year — not when
it was watched in that year (for movies, assuming all recorded watch
years are positive, as years of real timestamps are). -/
theorem top3_eligibility_first_watch_and_release_year (y : Int)
    (aw : List ProcMovie) (shows : List ProcShow) (rk : List RankingEntry)
    (hpos : ∀ m ∈ aw, 0 < getFullYear m.watchDate) :
    getTop3ForYearMovies y aw rk =
      (rk.filter (fun r => earliestWatchYear aw r.rating_key == some y)).take 3 ∧
    getTop3ForYearTV y shows rk =
      ((rk.filter (fun r => lastReleaseYearOf shows r.rating_key == some y)).take
        3).map (fun r => r.title) := by
  have hm : ∀ k, assocLookup (firstWatchDates aw) k = earliestWatchYear aw k := by
    intro k
    rw [firstWatchDates,
      firstWatch_lookup_eq_minFold aw k [] (by intro v hv; cases hv) hpos]
    rfl
  have htv : ∀ k, assocLookup (releaseYearsByRatingKey shows) k =
      lastReleaseYearOf shows k := by
    intro k
    rw [releaseYearsByRatingKey, releaseYears_lookup_eq_last shows k []]
    rfl
  constructor
  · show (rk.filter (fun r =>
      assocLookup (firstWatchDates aw) r.rating_key == some y)).take 3 = _
    congr 1
    apply List.filter_congr
    intro r _
    rw [hm]
  · show ((rk.filter (fun r =>
      assocLookup (releaseYearsByRatingKey shows) r.rating_key == some y)).take
        3).map (fun r => r.title) = _
    congr 2
    apply List.filter_congr
    intro r _
    rw [htv]

/-- Witness for C2's amended theorem on concrete histories. -/
theorem top3_eligibility_first_watch_and_release_year_witness :
    getTop3ForYearMovies 1970
      [⟨some 7, "X", .num 31536000, 31536000000, 1971, none⟩,
        ⟨some 7, "X", .num 0, 0, 1970, none⟩]
      [⟨some 7, "X"⟩] =
      (([⟨some 7, "X"⟩] : List RankingEntry).filter (fun r =>
        earliestWatchYear
          [⟨some 7, "X", .num 31536000, 31536000000, 1971, none⟩,
            ⟨some 7, "X", .num 0, 0, 1970, none⟩] r.rating_key == some 1970)).take 3 ∧
    getTop3ForYearTV 1970 [⟨some 3, "S", 31536000000, 1971, some 1960, none, 0, 2⟩]
      [⟨some 7, "X"⟩] =
      ((([⟨some 7, "X"⟩] : List RankingEntry).filter (fun r =>
        lastReleaseYearOf [⟨some 3, "S", 31536000000, 1971, some 1960, none, 0, 2⟩]
          r.rating_key == some 1970)).take 3).map (fun r => r.title) :=
  top3_eligibility_first_watch_and_release_year 1970
    [⟨some 7, "X", .num 31536000, 31536000000, 1971, none⟩,
      ⟨some 7, "X", .num 0, 0, 1970, none⟩]
    [⟨some 3, "S", 31536000000, 1971, some 1960, none, 0, 2⟩]
    [⟨some 7, "X"⟩] (by decide)

end MediaConsumption
